import Mathlib

/-!
Verification of the intra-process channel allocator
(`src/communication/src/allocator/process.rs` of timely-dataflow's
communication crate): the channel registry with its lazy exactly-once
construction, per-worker slot consumption, drain-time garbage collection,
the two-phase buzzer exchange in `ProcessBuilder::build`, and the
`Pusher::push` / `Puller::pull` endpoint dynamics.

Shallow embedding conventions:
* Rust's `std::sync::mpsc` channel is modelled as `Chan α`: a FIFO queue of
  pending messages plus liveness flags for the two endpoints.  `try_recv`
  returns the head of the queue when one is pending (even after the senders
  are gone, matching mpsc), and otherwise distinguishes `Empty` from
  `Disconnected` by whether a sender is still alive.
* The type-erased registry value `Box<dyn Any + Send>` holding a
  `Vec<Option<(Vec<(Pusher<Message<T>>, Buzzer)>, Puller<Message<T>>)>>`
  is modelled as `ChannelEntry`: a runtime type tag (standing for `TypeId`
  of `T`) together with the slot vector; the checked `downcast_mut` becomes
  an equality test on the tag, and sub-channels are referred to by their
  destination index (payload values play no role in the registry claims).
* Rust panics (`expect`, `unwrap`, out-of-bounds indexing) become the
  `AllocFatal` error results of `Process.allocate`; the mutex-guarded
  critical section is one atomic step of the model.
-/

set_option autoImplicit false

namespace ProcessAlloc

/-! ### mpsc channels and the endpoint halves -/

/-- State of one `std::sync::mpsc` sub-channel carrying values of type `α`:
the FIFO of sent-but-not-yet-received messages, and whether each endpoint
is still alive. -/
structure Chan (α : Type) where
  queue : List α
  sendersAlive : Bool
  receiverAlive : Bool
  deriving DecidableEq

/-- Outcomes of `Receiver::try_recv` that carry no value. -/
inductive TryRecvError where
  | empty
  | disconnected
  deriving DecidableEq

/-- `Receiver::try_recv`: non-blocking; yields the head of the queue when a
message is pending (even if all senders were dropped), otherwise reports
`Empty` while a sender lives and `Disconnected` once none does. -/
def Chan.tryRecv {α : Type} (c : Chan α) : Except TryRecvError α × Chan α :=
  match c.queue with
  | v :: rest => (Except.ok v, { c with queue := rest })
  | [] =>
    if c.sendersAlive then (Except.error TryRecvError.empty, c)
    else (Except.error TryRecvError.disconnected, c)

/-- `Sender::send`: enqueues the value; fails exactly when the receiving
half has been destroyed. -/
def Chan.send {α : Type} (c : Chan α) (v : α) : Except Unit (Chan α) :=
  if c.receiverAlive then Except.ok { c with queue := c.queue ++ [v] }
  else Except.error ()

/-- The push half of an intra-process channel (`struct Pusher<T>`); its
`target` names the sub-channel (destination worker index) the wrapped
`Sender<T>` feeds. -/
structure Pusher where
  target : Nat
  deriving DecidableEq

/-- `impl Push for Pusher`: `push` takes the caller's optional element; if
present it is sent into `target`'s sub-channel with `.unwrap()` — an error
result models the panic when the receiver is destroyed; if absent, nothing
happens.  `ch` is the state of the sub-channel `self.target` refers to;
the returned option is the caller's element after `element.take()`. -/
def Pusher.push {α : Type} (_self : Pusher) (ch : Chan α) (element : Option α) :
    Except Unit (Option α × Chan α) :=
  match element with
  | some v =>
    match ch.send v with
    | Except.ok ch' => Except.ok (none, ch')
    | Except.error e => Except.error e
  | none => Except.ok (none, ch)

/-- The pull half of an intra-process channel (`struct Puller<T>`): the held
slot `current` and the index `source` of the sub-channel its `Receiver<T>`
drains. -/
structure Puller (α : Type) where
  current : Option α
  source : Nat
  deriving DecidableEq

/-- `impl Pull for Puller`: `self.current = self.source.try_recv().ok()` —
the held slot is unconditionally overwritten with the result of a
non-blocking receive, any error collapsing to `none`. -/
def Puller.pull {α : Type} (p : Puller α) (ch : Chan α) : Puller α × Chan α :=
  let r := ch.tryRecv
  ({ p with current := r.1.toOption }, r.2)

/-! ### Buzzers and the two-phase exchange of `ProcessBuilder::build` -/

/-- Modelled from the spec: `Buzzer` (from the crate's `buzzer` module, not
present under `src/`) is an opaque, cloneable cross-thread wake handle; per
the spec a buzzer wakes the worker whose setup created it, so we record
that worker as `wakeTarget`.  `serial` records which `Buzzer::new()` call
of that worker produced the instance, so that distinct creations yield
distinct values while `clone` preserves the value. -/
structure Buzzer where
  wakeTarget : Nat
  serial : Nat
  deriving DecidableEq

/-- `Buzzer::new()` executed by worker `creator` as its `serial`-th creation. -/
def Buzzer.new (creator : Nat) (serial : Nat) : Buzzer :=
  { wakeTarget := creator, serial := serial }

/-- `Buzzer::clone`: clone by value, behaviourally identical. -/
def Buzzer.clone (b : Buzzer) : Buzzer := b

/-- One step of `ProcessBuilder::build` as seen by one worker: a send of a
fresh buzzer into the slot toward `dest`, or a receive of the buzzer from
`src`. -/
inductive BuildEvent where
  | sendB (dest : Nat)
  | recvB (src : Nat)
  deriving DecidableEq

/-- The order of operations of `ProcessBuilder::build` for one worker with
`peers` peers: the first loop sends into `buzzers_send[0] .. [peers-1]`,
and only then does the second loop receive from
`buzzers_recv[0] .. [peers-1]`. -/
def ProcessBuilder.buildTrace (peers : Nat) : List BuildEvent :=
  (List.range peers).map BuildEvent.sendB ++ (List.range peers).map BuildEvent.recvB

/-- The buzzer worker `index` sends into `buzzers_send[dest]` during its
send loop: a fresh `Buzzer::new()` per iteration (the `dest`-th creation
of worker `index`). -/
def ProcessBuilder.sentBuzzer (index : Nat) (dest : Nat) : Buzzer :=
  Buzzer.new index dest

/-- Modelled from the spec: the `promise_futures(peers, peers)` matrix (not
present under `src/`) connects worker `i`'s send slot `j` to worker `j`'s
receive slot `i` ("pulling exactly one buzzer from each peer's
outbound-to-self slot").  Hence the list `buzzers` assembled by worker
`index` holds at position `j` the buzzer worker `j` sent toward `index`. -/
def ProcessBuilder.buildBuzzers (index : Nat) (peers : Nat) : List Buzzer :=
  (List.range peers).map (fun j => ProcessBuilder.sentBuzzer j index)

/-! ### The channel registry and `Process::allocate` -/

/-- Stand-in for Rust's `TypeId` of the payload `Message<T>`: the runtime
type tag the `downcast_mut` of the type-erased registry value checks. -/
abbrev RustTypeId := Nat

/-- One worker's slot of a channel entry: the full list of `peers` producer
halves, each paired with the destination worker's buzzer, plus the one
consumer half reading the sub-channel addressed to this slot's worker
(`(Vec<(Pusher<Message<T>>, Buzzer)>, Puller<Message<T>>)`).  The registry
is type-erased, so the stored puller's payload type is `Unit` here; the
`RustTypeId` of the entry records the erased `T`. -/
abbrev SlotBundle := List (Pusher × Buzzer) × Puller Unit

/-- A registry entry for one channel id: the runtime type tag of the boxed
`Vec<Option<(Vec<(Pusher<Message<T>>, Buzzer)>, Puller<Message<T>>)>>` and
the per-worker slot vector itself. -/
structure ChannelEntry where
  ty : RustTypeId
  slots : List (Option SlotBundle)
  deriving DecidableEq

/-- The `HashMap<usize, Box<dyn Any + Send>>` behind the mutex, as an
association list keyed by channel id. -/
def lookupEntry (k : Nat) : List (Nat × ChannelEntry) → Option ChannelEntry
  | [] => none
  | (k', v) :: rest => if k' = k then some v else lookupEntry k rest

/-- Insert or overwrite the binding of `k` (the map write performed by
`entry(..).or_insert_with(..)` and by storing back the mutated vector). -/
def insertEntry (k : Nat) (v : ChannelEntry) :
    List (Nat × ChannelEntry) → List (Nat × ChannelEntry)
  | [] => [(k, v)]
  | (k', v') :: rest =>
    if k' = k then (k, v) :: rest else (k', v') :: insertEntry k v rest

/-- `channels.remove(&identifier)`. -/
def removeEntry (k : Nat) : List (Nat × ChannelEntry) → List (Nat × ChannelEntry)
  | [] => []
  | (k', v') :: rest =>
    if k' = k then removeEntry k rest else (k', v') :: removeEntry k rest

/-- The shared state behind `Arc<Mutex<HashMap<..>>>`, together with an
instrumentation counter for the per-id construction path (the
`or_insert_with` closure), as the spec's construction-once test demands. -/
structure ProcessState where
  channels : List (Nat × ChannelEntry)
  constructions : Nat
  deriving DecidableEq

/-- The per-worker fields of `struct Process` that `allocate` reads:
its index, the peer count, and the buzzer list assembled by `build`. -/
structure Process where
  index : Nat
  peers : Nat
  buzzers : List Buzzer
  deriving DecidableEq

/-- The `or_insert_with` closure of `Process::allocate`: for each
destination `index in 0..peers` create one sub-channel, push
`(Pusher { target: s }, self.buzzers[index].clone())` and
`Puller { source: r, current: None }`; then each slot `i` bundles a clone
of the whole pusher list with puller `i`.  `constructPushers` is the
`pushers` vector built by the closure's first loop. -/
def constructPushers (p : Process) : List (Pusher × Buzzer) :=
  (List.range p.peers).map
    (fun index => ({ target := index }, (p.buzzers.getD index (Buzzer.new 0 0)).clone))

/-- The entry the `or_insert_with` closure boxes: slot `i` holds
`Some((pushers.clone(), pullers[i]))`. -/
def constructEntry (p : Process) (ty : RustTypeId) : ChannelEntry :=
  { ty := ty,
    slots := (List.range p.peers).map
      (fun i => some (constructPushers p, { current := none, source := i })) }

/-- The panics `Process::allocate` can raise, as error results: the failed
`downcast_mut` (`"failed to correctly cast channel"`), the failed
`.take()` (`"channel already consumed"`), and the out-of-bounds
`vector[self.index]`. -/
inductive AllocFatal where
  | typeMismatch
  | slotAlreadyConsumed
  | indexOutOfBounds
  deriving DecidableEq

/-- The progress-counting producer wrapper
`counters::ArcPusher::new(s, identifier, counters_send[i].clone(), b)`
(the wrapper type lives outside `src/`; this records the construction
arguments `Process::allocate` passes). -/
structure CountPusher where
  pusher : Pusher
  identifier : Nat
  counter : Nat
  buzzer : Buzzer
  deriving DecidableEq

/-- The progress-counting consumer wrapper
`counters::Puller::new(recv, identifier, self.inner.events().clone())`. -/
structure CountPuller where
  puller : Puller Unit
  identifier : Nat
  deriving DecidableEq

/-- The wrapping of the bundle's producer halves performed at the end of
`Process::allocate`:
`sends.into_iter().enumerate().map(|(i,(s,b))| CountPusher::new(s, identifier, self.counters_send[i].clone(), b))`. -/
def wrapSends (identifier : Nat) (l : List (Pusher × Buzzer)) : List CountPusher :=
  l.enum.map
    (fun ib => { pusher := ib.2.1, identifier := identifier,
                 counter := ib.1, buzzer := ib.2.2 })

/-- `Process::allocate::<T>(identifier)` as one atomic step on the shared
registry (the mutex is held for the whole body): look the id up,
constructing the full entry on a miss; check the payload type tag (the
`downcast_mut`); take the caller's slot; if the vector is now all-`None`,
remove the id's entry — all before the lock is released; finally wrap the
bundle's halves with the progress counters.  Errors model the panics and
leave the registry as the failing body left it. -/
def Process.allocate (p : Process) (ty : RustTypeId) (identifier : Nat)
    (s : ProcessState) :
    Except AllocFatal (List CountPusher × CountPuller) × ProcessState :=
  let hit := lookupEntry identifier s.channels
  let entry := match hit with
    | some e => e
    | none => constructEntry p ty
  let channels1 := match hit with
    | some _ => s.channels
    | none => insertEntry identifier entry s.channels
  let constructions1 := match hit with
    | some _ => s.constructions
    | none => s.constructions + 1
  if entry.ty = ty then
    match entry.slots[p.index]? with
    | none =>
      (Except.error AllocFatal.indexOutOfBounds,
       { channels := channels1, constructions := constructions1 })
    | some none =>
      (Except.error AllocFatal.slotAlreadyConsumed,
       { channels := channels1, constructions := constructions1 })
    | some (some bundle) =>
      let slots2 := entry.slots.set p.index none
      let empty := slots2.all (fun x => x.isNone)
      let channels2 :=
        if empty then removeEntry identifier channels1
        else insertEntry identifier { entry with slots := slots2 } channels1
      let sends := wrapSends identifier bundle.1
      let recv : CountPuller := { puller := bundle.2, identifier := identifier }
      (Except.ok (sends, recv),
       { channels := channels2, constructions := constructions1 })
  else
    (Except.error AllocFatal.typeMismatch,
     { channels := channels1, constructions := constructions1 })

/-- Well-formedness of a registry entry for a registry of `peers` workers:
exactly `peers` slots, and every still-available slot `i` bundles `peers`
producers — the `m`-th targeting sub-channel `m` — with the consumer of
sub-channel `i`, whose held slot starts empty. -/
def ChannelEntry.wf (peers : Nat) (e : ChannelEntry) : Prop :=
  e.slots.length = peers ∧
  ∀ (i : Nat) (b : SlotBundle), e.slots[i]? = some (some b) →
    b.1.length = peers ∧ b.2.source = i ∧ b.2.current = none ∧
    ∀ (m : Nat) (pb : Pusher × Buzzer), b.1[m]? = some pb → pb.1.target = m

/-- Well-formedness of the whole registry: every live entry is well-formed. -/
def ProcessState.wf (peers : Nat) (s : ProcessState) : Prop :=
  ∀ c e, lookupEntry c s.channels = some e → ChannelEntry.wf peers e

/-! ### Endpoint dynamics: claims C6, C8, C10 -/

/-- C6: `pull` on a consumer endpoint never blocks: with no pending message
it returns an absent held slot, and once a `push` of value `v` has been
delivered into an idle sub-channel, a `pull` returns exactly `v` — the held
slot contains the pushed value unmodified. -/
theorem pull_absent_and_push_pull_delivers {α : Type} (pu : Pusher) (p : Puller α)
    (ch : Chan α) (v : α) :
    (ch.queue = [] → (p.pull ch).1.current = none) ∧
    (∀ (e : Option α) (ch' : Chan α), ch.queue = [] →
      pu.push ch (some v) = Except.ok (e, ch') →
      (p.pull ch').1.current = some v) := by
  constructor
  · intro hq
    cases hsa : ch.sendersAlive <;>
      simp [Puller.pull, Chan.tryRecv, Except.toOption, hq, hsa]
  · intro e ch' hq hp
    cases hra : ch.receiverAlive with
    | false => simp [Pusher.push, Chan.send, hra] at hp
    | true =>
      simp [Pusher.push, Chan.send, hra, hq] at hp
      obtain ⟨he, hch⟩ := hp
      subst hch
      simp [Puller.pull, Chan.tryRecv, Except.toOption]

/-- Witness for C6 at concrete inputs: an idle channel pulls absent, and a
pushed `5` is pulled back exactly. -/
theorem pull_absent_and_push_pull_delivers_witness :
    ((⟨none, 0⟩ : Puller Nat).pull ⟨[], true, true⟩).1.current = none ∧
    ((⟨none, 0⟩ : Puller Nat).pull ⟨[5], true, true⟩).1.current = some 5 :=
  ⟨(pull_absent_and_push_pull_delivers ⟨0⟩ ⟨none, 0⟩ ⟨[], true, true⟩ 5).1 rfl,
   (pull_absent_and_push_pull_delivers ⟨0⟩ ⟨none, 0⟩ ⟨[], true, true⟩ 5).2
      none ⟨[5], true, true⟩ rfl rfl⟩

/-- C8 counterexample: a `pull` whose underlying receive fails because the
sending peer was destroyed does NOT surface the failure fatally — the
`Disconnected` error of `try_recv` is swallowed by `.ok()`, so the pull
result is indistinguishable from a merely empty channel and reports plain
absence. -/
theorem pull_disconnected_silent_cex :
    (Chan.tryRecv (⟨[], false, true⟩ : Chan Nat)).1
        = Except.error TryRecvError.disconnected ∧
    ((⟨none, 0⟩ : Puller Nat).pull ⟨[], false, true⟩).1
        = ((⟨none, 0⟩ : Puller Nat).pull ⟨[], true, true⟩).1 ∧
    ((⟨none, 0⟩ : Puller Nat).pull ⟨[], false, true⟩).1.current = none := by
  refine ⟨rfl, rfl, rfl⟩

/-- C8 (amended): `push` of a present value panics when the destination
consumer is gone (the `.unwrap()`, modelled as a fatal error result); but a
`pull` whose underlying receive fails for a destroyed peer does not surface
the failure — it silently returns the same absent result as
no-pending-data. -/
theorem push_disconnected_fatal_pull_silent {α : Type} :
    (∀ (pu : Pusher) (ch : Chan α) (v : α), ch.receiverAlive = false →
      pu.push ch (some v) = Except.error ()) ∧
    (∀ (p : Puller α) (ch : Chan α), ch.queue = [] → ch.sendersAlive = false →
      (ch.tryRecv).1 = Except.error TryRecvError.disconnected ∧
      (p.pull ch).1.current = none) := by
  constructor
  · intro pu ch v hra
    simp [Pusher.push, Chan.send, hra]
  · intro p ch hq hsa
    constructor
    · simp [Chan.tryRecv, hq, hsa]
    · simp [Puller.pull, Chan.tryRecv, Except.toOption, hq, hsa]

/-- Witness for the amended C8 at concrete inputs. -/
theorem push_disconnected_fatal_pull_silent_witness :
    Pusher.push ⟨1⟩ (⟨[], true, false⟩ : Chan Nat) (some 7) = Except.error () ∧
    ((⟨none, 1⟩ : Puller Nat).pull ⟨[], false, true⟩).1.current = none :=
  ⟨(push_disconnected_fatal_pull_silent (α := Nat)).1 ⟨1⟩ ⟨[], true, false⟩ 7 rfl,
   ((push_disconnected_fatal_pull_silent (α := Nat)).2 ⟨none, 1⟩ ⟨[], false, true⟩
      rfl rfl).2⟩

/-- C10: every `pull` overwrites the held slot: the slot after a `pull`
holds exactly the message received by that call (independently of whatever
the caller left in the slot), the received message is removed from the
sub-channel's queue, and a value returned by a previous `pull` that the
caller did not take is discarded and never delivered again. -/
theorem pull_overwrites_held_slot {α : Type} (p q : Puller α) (ch : Chan α) :
    ((p.pull ch).1.current = (ch.tryRecv).1.toOption) ∧
    ((p.pull ch).1.current = (q.pull ch).1.current) ∧
    ((p.pull ch).2.queue = ch.queue.tail) ∧
    (∀ (v : α) (rest : List α), ch.queue = v :: rest → v ∉ rest →
      (p.pull ch).1.current = some v ∧
      ∀ (r : Puller α), (r.pull (p.pull ch).2).1.current ≠ some v) := by
  refine ⟨rfl, rfl, ?_, ?_⟩
  · cases hq : ch.queue with
    | nil => cases hsa : ch.sendersAlive <;>
        simp [Puller.pull, Chan.tryRecv, Except.toOption, hq, hsa]
    | cons v rest => simp [Puller.pull, Chan.tryRecv, Except.toOption, hq]
  · intro v rest hq hni
    constructor
    · simp [Puller.pull, Chan.tryRecv, Except.toOption, hq]
    · intro r
      have h2 : (p.pull ch).2 = { ch with queue := rest } := by
        simp [Puller.pull, Chan.tryRecv, Except.toOption, hq]
      rw [h2]
      cases hr : rest with
      | nil => cases hsa : ch.sendersAlive <;>
          simp [Puller.pull, Chan.tryRecv, Except.toOption, hsa]
      | cons w rest' =>
        have hw : w ≠ v := by
          intro hwv
          exact hni (hwv ▸ (hr ▸ List.mem_cons_self w rest'))
        simp [Puller.pull, Chan.tryRecv, Except.toOption, hr]
        exact fun hcontra => hw hcontra

/-- Witness for C10 at concrete inputs: a stale `9` left in the slot is
overwritten by the pulled `5`, and the `5`, in turn, once pulled, is gone. -/
theorem pull_overwrites_held_slot_witness :
    ((⟨some 9, 0⟩ : Puller Nat).pull ⟨[5], true, true⟩).1.current = some 5 ∧
    ∀ (r : Puller Nat),
      (r.pull ((⟨some 9, 0⟩ : Puller Nat).pull ⟨[5], true, true⟩).2).1.current
        ≠ some 5 :=
  (pull_overwrites_held_slot ⟨some 9, 0⟩ ⟨none, 0⟩ ⟨[5], true, true⟩).2.2.2
    5 [] rfl (by simp)

/-! ### The two-phase buzzer exchange: claims C7, C9 -/

/-- C7: during `ProcessBuilder::build` a worker first sends one buzzer into
every peer's inbound slot — exactly the destinations `0..peers`, its own
included — and only after all sends does it perform any receive (every send
event strictly precedes every receive event in the trace); it then receives
exactly one buzzer from each peer, producing a buzzer list of length
`peers` whose `j`-th element came from peer `j`. -/
theorem build_sends_all_then_receives_all (index peers : Nat) :
    ((ProcessBuilder.buildBuzzers index peers).length = peers) ∧
    (∀ j, j < peers →
      (ProcessBuilder.buildBuzzers index peers)[j]?
        = some (ProcessBuilder.sentBuzzer j index)) ∧
    (∀ (d : Nat), BuildEvent.sendB d ∈ ProcessBuilder.buildTrace peers ↔ d < peers) ∧
    (∀ (s : Nat), BuildEvent.recvB s ∈ ProcessBuilder.buildTrace peers ↔ s < peers) ∧
    (∀ (i j a b : Nat),
      (ProcessBuilder.buildTrace peers)[i]? = some (BuildEvent.sendB a) →
      (ProcessBuilder.buildTrace peers)[j]? = some (BuildEvent.recvB b) →
      i < j) := by
  refine ⟨by simp [ProcessBuilder.buildBuzzers], ?_, ?_, ?_, ?_⟩
  · intro j hj
    simp [ProcessBuilder.buildBuzzers, List.getElem?_map, List.getElem?_range hj]
  · intro d
    simp [ProcessBuilder.buildTrace, List.mem_append, List.mem_map, List.mem_range]
  · intro s
    simp [ProcessBuilder.buildTrace, List.mem_append, List.mem_map, List.mem_range]
  · intro i j a b hi hj
    have hi' : i < peers := by
      by_contra hge
      push_neg at hge
      rw [ProcessBuilder.buildTrace,
          List.getElem?_append_right (by simpa using hge)] at hi
      rw [List.getElem?_map] at hi
      simp only [List.length_map, List.length_range] at hi
      rcases hopt : (List.range peers)[i - peers]? with _ | x <;>
        rw [hopt] at hi <;> simp at hi
    have hj' : peers ≤ j := by
      by_contra hlt
      push_neg at hlt
      rw [ProcessBuilder.buildTrace, List.getElem?_append, if_pos (by simpa using hlt)] at hj
      rw [List.getElem?_map, List.getElem?_range hlt] at hj
      simp at hj
    exact Nat.lt_of_lt_of_le hi' hj'

/-- Witness for C7 at concrete inputs: with two peers, worker 0's buzzer
list holds at position 1 the buzzer peer 1 sent it, and the send at trace
position 0 precedes the receive at trace position 2. -/
theorem build_sends_all_then_receives_all_witness :
    (ProcessBuilder.buildBuzzers 0 2)[1]? = some (ProcessBuilder.sentBuzzer 1 0) ∧
    (0 : Nat) < 2 :=
  ⟨(build_sends_all_then_receives_all 0 2).2.1 1 (by decide),
   (build_sends_all_then_receives_all 0 2).2.2.2.2 0 2 0 0 (by decide) (by decide)⟩

/-- C9 counterexample: with two workers, the buzzer worker 1 holds for
waking worker 0 is `Buzzer::new` instance `(0,1)`, while the buzzer worker
0 created for itself is the distinct instance `(0,0)` — worker 0 ran
`Buzzer::new()` once per peer instead of cloning a single owned instance,
so the handle worker 1 holds is not a clone of worker 0's own handle. -/
theorem buzzer_fresh_instance_per_peer_cex :
    (ProcessBuilder.buildBuzzers 1 2)[0]? = some (Buzzer.new 0 1) ∧
    (ProcessBuilder.buildBuzzers 0 2)[0]? = some (Buzzer.new 0 0) ∧
    Buzzer.new 0 1 ≠ Buzzer.new 0 0 ∧
    (Buzzer.new 0 0).clone ≠ Buzzer.new 0 1 := by
  decide

/-- C9 (amended): each worker creates a fresh buzzer per peer — `peers`
separate `Buzzer::new()` calls rather than one instance distributed by
cloning — so for any workers `w`, `k` the buzzer worker `w` holds for
waking `k` is a distinct instance from the one worker `k` holds for
itself whenever `w ≠ k`, but both were created by worker `k` and have the
same wake target (worker `k`), hence are behaviourally identical. -/
theorem buzzer_same_wake_target (w k peers : Nat) (hk : k < peers)
    (_hw : w < peers) :
    (ProcessBuilder.buildBuzzers w peers)[k]? = some (Buzzer.new k w) ∧
    (ProcessBuilder.buildBuzzers k peers)[k]? = some (Buzzer.new k k) ∧
    (Buzzer.new k w).wakeTarget = k ∧
    (Buzzer.new k k).wakeTarget = k ∧
    (w ≠ k → Buzzer.new k w ≠ Buzzer.new k k) := by
  refine ⟨?_, ?_, rfl, rfl, ?_⟩
  · simp [ProcessBuilder.buildBuzzers, ProcessBuilder.sentBuzzer,
      List.getElem?_map, List.getElem?_range hk]
  · simp [ProcessBuilder.buildBuzzers, ProcessBuilder.sentBuzzer,
      List.getElem?_map, List.getElem?_range hk]
  · intro hne heq
    exact hne (congrArg Buzzer.serial heq)

/-- Witness for the amended C9 at concrete inputs. -/
theorem buzzer_same_wake_target_witness :
    (ProcessBuilder.buildBuzzers 1 2)[0]? = some (Buzzer.new 0 1) ∧
    (ProcessBuilder.buildBuzzers 0 2)[0]? = some (Buzzer.new 0 0) ∧
    (Buzzer.new 0 1).wakeTarget = 0 ∧
    (Buzzer.new 0 0).wakeTarget = 0 ∧
    ((1 : Nat) ≠ 0 → Buzzer.new 0 1 ≠ Buzzer.new 0 0) :=
  buzzer_same_wake_target 1 0 2 (by decide) (by decide)

/-! ### Registry helper lemmas -/

theorem lookupEntry_insert_self (k : Nat) (v : ChannelEntry)
    (m : List (Nat × ChannelEntry)) :
    lookupEntry k (insertEntry k v m) = some v := by
  induction m with
  | nil => simp [insertEntry, lookupEntry]
  | cons kv rest ih =>
    obtain ⟨k', v'⟩ := kv
    by_cases h : k' = k <;> simp [insertEntry, lookupEntry, h, ih]

theorem lookupEntry_insert_ne (k k' : Nat) (v : ChannelEntry)
    (m : List (Nat × ChannelEntry)) (h : k' ≠ k) :
    lookupEntry k' (insertEntry k v m) = lookupEntry k' m := by
  have hkk : ¬ (k = k') := fun he => h he.symm
  induction m with
  | nil => simp [insertEntry, lookupEntry, hkk]
  | cons kv rest ih =>
    obtain ⟨k'', v''⟩ := kv
    by_cases hk : k'' = k
    · subst hk
      simp [insertEntry, lookupEntry, hkk]
    · simp [insertEntry, lookupEntry, hk, ih]

theorem lookupEntry_remove_self (k : Nat) (m : List (Nat × ChannelEntry)) :
    lookupEntry k (removeEntry k m) = none := by
  induction m with
  | nil => simp [removeEntry, lookupEntry]
  | cons kv rest ih =>
    obtain ⟨k', v'⟩ := kv
    by_cases h : k' = k <;> simp [removeEntry, lookupEntry, h, ih]

theorem lookupEntry_remove_ne (k k' : Nat) (m : List (Nat × ChannelEntry))
    (h : k' ≠ k) :
    lookupEntry k' (removeEntry k m) = lookupEntry k' m := by
  have hkk : ¬ (k = k') := fun he => h he.symm
  induction m with
  | nil => simp [removeEntry, lookupEntry]
  | cons kv rest ih =>
    obtain ⟨k'', v''⟩ := kv
    by_cases hk : k'' = k
    · subst hk
      simp [removeEntry, lookupEntry, hkk, ih]
    · simp [removeEntry, lookupEntry, hk, ih]

theorem constructPushers_length (p : Process) :
    (constructPushers p).length = p.peers := by
  simp [constructPushers]

theorem constructPushers_target (p : Process) (m : Nat) (pb : Pusher × Buzzer)
    (h : (constructPushers p)[m]? = some pb) : pb.1.target = m := by
  have hm : m < p.peers := by
    have := (List.getElem?_eq_some_iff.mp h).1
    simpa [constructPushers] using this
  rw [constructPushers, List.getElem?_map, List.getElem?_range hm] at h
  simp only [Option.map_some'] at h
  cases h
  rfl

theorem constructEntry_slots_get (p : Process) (ty : RustTypeId) (i : Nat)
    (hi : i < p.peers) :
    (constructEntry p ty).slots[i]?
      = some (some (constructPushers p, { current := none, source := i })) := by
  simp [constructEntry, List.getElem?_map, List.getElem?_range hi]

theorem constructEntry_slots_length (p : Process) (ty : RustTypeId) :
    (constructEntry p ty).slots.length = p.peers := by
  simp [constructEntry]

theorem constructEntry_wf (p : Process) (ty : RustTypeId) :
    ChannelEntry.wf p.peers (constructEntry p ty) := by
  refine ⟨constructEntry_slots_length p ty, ?_⟩
  intro i b hb
  have hi : i < p.peers := by
    have := (List.getElem?_eq_some_iff.mp hb).1
    simpa [constructEntry] using this
  rw [constructEntry_slots_get p ty i hi] at hb
  obtain rfl : (constructPushers p, ({ current := none, source := i } : Puller Unit)) = b := by
    injection hb with hb
    injection hb
  exact ⟨constructPushers_length p, rfl, rfl,
    fun m pb hpb => constructPushers_target p m pb hpb⟩

theorem wrapSends_length (c : Nat) (l : List (Pusher × Buzzer)) :
    (wrapSends c l).length = l.length := by
  simp [wrapSends, List.enum_length]

theorem wrapSends_get (c : Nat) (l : List (Pusher × Buzzer)) (i : Nat)
    (cp : CountPusher) (h : (wrapSends c l)[i]? = some cp) :
    ∃ pb, l[i]? = some pb ∧ cp.pusher = pb.1 ∧ cp.buzzer = pb.2 ∧
      cp.counter = i ∧ cp.identifier = c := by
  rw [wrapSends, List.getElem?_map, List.getElem?_enum] at h
  rcases hopt : l[i]? with _ | pb <;> rw [hopt] at h
  · simp at h
  · simp only [Option.map_some'] at h
    cases h
    exact ⟨pb, rfl, rfl, rfl, rfl, rfl⟩

/-- Unfolding of `Process.allocate` when the id is present in the table. -/
theorem allocate_hit (p : Process) (ty : RustTypeId) (c : Nat)
    (s : ProcessState) (e : ChannelEntry)
    (h : lookupEntry c s.channels = some e) :
    p.allocate ty c s =
      if e.ty = ty then
        match e.slots[p.index]? with
        | none =>
          (Except.error AllocFatal.indexOutOfBounds,
           { channels := s.channels, constructions := s.constructions })
        | some none =>
          (Except.error AllocFatal.slotAlreadyConsumed,
           { channels := s.channels, constructions := s.constructions })
        | some (some bundle) =>
          (Except.ok (wrapSends c bundle.1,
             { puller := bundle.2, identifier := c }),
           { channels :=
               if (e.slots.set p.index none).all (fun x => x.isNone)
               then removeEntry c s.channels
               else insertEntry c { e with slots := e.slots.set p.index none }
                      s.channels,
             constructions := s.constructions })
      else
        (Except.error AllocFatal.typeMismatch,
         { channels := s.channels, constructions := s.constructions }) := by
  rw [Process.allocate, h]
  rfl

/-- Unfolding of `Process.allocate` when the id is absent: the entry is
freshly constructed (type tag always matching) and the construction
counter advances. -/
theorem allocate_miss (p : Process) (ty : RustTypeId) (c : Nat)
    (s : ProcessState) (h : lookupEntry c s.channels = none) :
    p.allocate ty c s =
      match (constructEntry p ty).slots[p.index]? with
      | none =>
        (Except.error AllocFatal.indexOutOfBounds,
         { channels := insertEntry c (constructEntry p ty) s.channels,
           constructions := s.constructions + 1 })
      | some none =>
        (Except.error AllocFatal.slotAlreadyConsumed,
         { channels := insertEntry c (constructEntry p ty) s.channels,
           constructions := s.constructions + 1 })
      | some (some bundle) =>
        (Except.ok (wrapSends c bundle.1,
           { puller := bundle.2, identifier := c }),
         { channels :=
             if ((constructEntry p ty).slots.set p.index none).all
                  (fun x => x.isNone)
             then removeEntry c (insertEntry c (constructEntry p ty) s.channels)
             else insertEntry c
                    { constructEntry p ty with
                      slots := (constructEntry p ty).slots.set p.index none }
                    (insertEntry c (constructEntry p ty) s.channels),
           constructions := s.constructions + 1 }) := by
  rw [Process.allocate, h]
  have he : (constructEntry p ty).ty = ty := rfl
  rw [if_pos he]
  rfl

/-- Inversion of a successful `allocate` on a well-formed registry: the
returned handles are the wrapped halves of the caller's slot bundle. -/
theorem allocate_ok_inv (p : Process) (ty : RustTypeId) (c : Nat)
    (s : ProcessState) (sends : List CountPusher) (recv : CountPuller)
    (s' : ProcessState) (hwf : s.wf p.peers)
    (h : p.allocate ty c s = (Except.ok (sends, recv), s')) :
    ∃ b : SlotBundle, sends = wrapSends c b.1 ∧
      recv = { puller := b.2, identifier := c } ∧
      b.1.length = p.peers ∧ b.2.source = p.index ∧ b.2.current = none ∧
      ∀ (m : Nat) (pb : Pusher × Buzzer), b.1[m]? = some pb → pb.1.target = m := by
  rcases hl : lookupEntry c s.channels with _ | e
  · rw [allocate_miss p ty c s hl] at h
    rcases hslot : (constructEntry p ty).slots[p.index]? with _ | ob
    · rw [hslot] at h; cases h
    · rcases ob with _ | bundle
      · rw [hslot] at h; cases h
      · rw [hslot] at h
        have hwfe := (constructEntry_wf p ty).2 p.index bundle hslot
        simp only [Prod.mk.injEq, Except.ok.injEq] at h
        exact ⟨bundle, h.1.1.symm, h.1.2.symm, hwfe.1, hwfe.2.1,
          hwfe.2.2.1, hwfe.2.2.2⟩
  · rw [allocate_hit p ty c s e hl] at h
    by_cases hty : e.ty = ty
    · rw [if_pos hty] at h
      rcases hslot : e.slots[p.index]? with _ | ob
      · rw [hslot] at h; cases h
      · rcases ob with _ | bundle
        · rw [hslot] at h; cases h
        · rw [hslot] at h
          have hwfe := (hwf c e hl).2 p.index bundle hslot
          simp only [Prod.mk.injEq, Except.ok.injEq] at h
          exact ⟨bundle, h.1.1.symm, h.1.2.symm, hwfe.1, hwfe.2.1,
            hwfe.2.2.1, hwfe.2.2.2⟩
    · rw [if_neg hty] at h; cases h

/-- C1: on a well-formed registry, every successful `allocate(c)` by a
worker returns exactly `peers` producer handles — the `i`-th targeting
destination worker `i` and bound to the `i`-th counter channel — and
exactly one consumer handle, bound to the sub-channel addressed to the
calling worker's own index, with an empty held slot. -/
theorem allocate_returns_full_bundle (p : Process) (ty : RustTypeId) (c : Nat)
    (s : ProcessState) (sends : List CountPusher) (recv : CountPuller)
    (s' : ProcessState) (hwf : s.wf p.peers)
    (h : p.allocate ty c s = (Except.ok (sends, recv), s')) :
    sends.length = p.peers ∧ recv.puller.source = p.index ∧
    recv.puller.current = none ∧ recv.identifier = c ∧
    ∀ (i : Nat) (cp : CountPusher), sends[i]? = some cp →
      cp.pusher.target = i ∧ cp.counter = i ∧ cp.identifier = c := by
  obtain ⟨b, hs, hr, hlen, hsrc, hcur, htgt⟩ :=
    allocate_ok_inv p ty c s sends recv s' hwf h
  subst hs; subst hr
  refine ⟨by rw [wrapSends_length, hlen], hsrc, hcur, rfl, ?_⟩
  intro i cp hcp
  obtain ⟨pb, hpb, hp1, _hp2, hc1, hc2⟩ := wrapSends_get c b.1 i cp hcp
  exact ⟨hp1 ▸ htgt i pb hpb, hc1, hc2⟩

/-- Witness for C1 at concrete inputs: one worker, id 3, type tag 7,
allocating on the empty registry. -/
theorem allocate_returns_full_bundle_witness :
    ([({ pusher := { target := 0 }, identifier := 3, counter := 0,
         buzzer := Buzzer.new 0 0 } : CountPusher)]).length = 1 ∧
    ({ puller := { current := none, source := 0 }, identifier := 3 }
        : CountPuller).puller.source = 0 ∧
    ({ puller := { current := none, source := 0 }, identifier := 3 }
        : CountPuller).puller.current = none ∧
    ({ puller := { current := none, source := 0 }, identifier := 3 }
        : CountPuller).identifier = 3 ∧
    ∀ (i : Nat) (cp : CountPusher),
      ([({ pusher := { target := 0 }, identifier := 3, counter := 0,
           buzzer := Buzzer.new 0 0 } : CountPusher)])[i]? = some cp →
      cp.pusher.target = i ∧ cp.counter = i ∧ cp.identifier = 3 :=
  allocate_returns_full_bundle ⟨0, 1, [Buzzer.new 0 0]⟩ 7 3 ⟨[], 0⟩
    [{ pusher := { target := 0 }, identifier := 3, counter := 0,
       buzzer := Buzzer.new 0 0 }]
    { puller := { current := none, source := 0 }, identifier := 3 }
    ⟨[], 1⟩
    (fun _ _ hce => Option.noConfusion hce)
    rfl

/-- C2: the `allocate` call that consumes the last remaining slot of `c`'s
entry succeeds and removes the entry from the registry within that same
call (before the lock is released), and a subsequent `allocate(c)` — with
any payload type, in particular a different one — succeeds and runs the
construction routine for a fresh entry. -/
theorem drain_removes_entry_and_id_reusable (p : Process) (c : Nat)
    (s : ProcessState) (e : ChannelEntry) (b : SlotBundle)
    (hl : lookupEntry c s.channels = some e)
    (hslot : e.slots[p.index]? = some (some b))
    (hothers : ∀ j, j ≠ p.index → j < e.slots.length → e.slots[j]? = some none) :
    ((p.allocate e.ty c s).1.isOk = true) ∧
    lookupEntry c (p.allocate e.ty c s).2.channels = none ∧
    (∀ (p' : Process) (ty' : RustTypeId), p'.index < p'.peers →
      ((p'.allocate ty' c (p.allocate e.ty c s).2).1.isOk = true) ∧
      ((p'.allocate ty' c (p.allocate e.ty c s).2).2.constructions
        = (p.allocate e.ty c s).2.constructions + 1)) := by
  have hempty : (e.slots.set p.index none).all (fun x => x.isNone) = true := by
    rw [List.all_eq_true]
    intro x hx
    obtain ⟨j, hj⟩ := List.mem_iff_getElem?.mp hx
    by_cases hji : j = p.index
    · rw [hji] at hj
      have hlt : p.index < e.slots.length := (List.getElem?_eq_some_iff.mp hslot).1
      rw [List.getElem?_set_self hlt] at hj
      cases hj; rfl
    · rw [List.getElem?_set_ne (Ne.symm hji)] at hj
      have hjlen : j < e.slots.length := (List.getElem?_eq_some_iff.mp hj).1
      rw [hothers j hji hjlen] at hj
      cases hj; rfl
  have halloc := allocate_hit p e.ty c s e hl
  rw [if_pos rfl, hslot, if_pos hempty] at halloc
  refine ⟨by rw [halloc]; rfl, by rw [halloc]; exact lookupEntry_remove_self c s.channels, ?_⟩
  intro p' ty' hidx
  have hm : lookupEntry c (p.allocate e.ty c s).2.channels = none := by
    rw [halloc]; exact lookupEntry_remove_self c s.channels
  have hmiss := allocate_miss p' ty' c (p.allocate e.ty c s).2 hm
  rw [constructEntry_slots_get p' ty' p'.index hidx] at hmiss
  exact ⟨by rw [hmiss]; rfl, by rw [hmiss, halloc]⟩

/-- Witness for C2 at concrete inputs: one worker, whose slot is the last
available one; after its allocate the entry for id 3 is gone, and a fresh
allocate with the different type tag 9 succeeds and constructs anew. -/
theorem drain_removes_entry_and_id_reusable_witness :
    ((Process.allocate ⟨0, 1, [Buzzer.new 0 0]⟩
        (ChannelEntry.ty ⟨7, [some ([({ target := 0 }, Buzzer.new 0 0)],
          { current := none, source := 0 })]⟩) 3
        ⟨[(3, ⟨7, [some ([({ target := 0 }, Buzzer.new 0 0)],
          { current := none, source := 0 })]⟩)], 0⟩).1.isOk = true) ∧
    lookupEntry 3 (Process.allocate ⟨0, 1, [Buzzer.new 0 0]⟩
        (ChannelEntry.ty ⟨7, [some ([({ target := 0 }, Buzzer.new 0 0)],
          { current := none, source := 0 })]⟩) 3
        ⟨[(3, ⟨7, [some ([({ target := 0 }, Buzzer.new 0 0)],
          { current := none, source := 0 })]⟩)], 0⟩).2.channels = none :=
  by
  have h := drain_removes_entry_and_id_reusable ⟨0, 1, [Buzzer.new 0 0]⟩ 3
    ⟨[(3, ⟨7, [some ([({ target := 0 }, Buzzer.new 0 0)],
      { current := none, source := 0 })]⟩)], 0⟩
    ⟨7, [some ([({ target := 0 }, Buzzer.new 0 0)],
      { current := none, source := 0 })]⟩
    ([({ target := 0 }, Buzzer.new 0 0)], { current := none, source := 0 })
    (by decide) (by decide)
    (fun j hj hlt => absurd (Nat.lt_one_iff.mp hlt) hj)
  exact ⟨h.1, h.2.1⟩

/-- C3: a second `allocate(c)` by the same worker while the entry still
lives — its slot already empty — hits the failed `.take()` and is fatal
(`channel already consumed`); the registry state is returned unchanged, so
a slot is never handed out twice. -/
theorem double_allocate_slot_already_consumed (p : Process) (ty : RustTypeId)
    (c : Nat) (s : ProcessState) (e : ChannelEntry)
    (hl : lookupEntry c s.channels = some e) (hty : e.ty = ty)
    (hslot : e.slots[p.index]? = some none) :
    p.allocate ty c s = (Except.error AllocFatal.slotAlreadyConsumed, s) := by
  rw [allocate_hit p ty c s e hl, if_pos hty, hslot]

/-- Witness for C3 at concrete inputs. -/
theorem double_allocate_slot_already_consumed_witness :
    Process.allocate ⟨0, 1, [Buzzer.new 0 0]⟩ 7 3 ⟨[(3, ⟨7, [none]⟩)], 0⟩
      = (Except.error AllocFatal.slotAlreadyConsumed, ⟨[(3, ⟨7, [none]⟩)], 0⟩) :=
  double_allocate_slot_already_consumed ⟨0, 1, [Buzzer.new 0 0]⟩ 7 3
    ⟨[(3, ⟨7, [none]⟩)], 0⟩ ⟨7, [none]⟩ (by decide) (by decide) (by decide)

/-- C4: an `allocate(c)` whose expected payload type differs from the live
entry's type tag fails fatally at the checked downcast (`TypeMismatch`),
never silently reinterpreting, and the registry state — in particular
`c`'s entry with all its remaining slots — is unchanged. -/
theorem type_mismatch_fatal_entry_unchanged (p : Process) (ty : RustTypeId)
    (c : Nat) (s : ProcessState) (e : ChannelEntry)
    (hl : lookupEntry c s.channels = some e) (hty : e.ty ≠ ty) :
    p.allocate ty c s = (Except.error AllocFatal.typeMismatch, s) ∧
    lookupEntry c (p.allocate ty c s).2.channels = some e := by
  have h := allocate_hit p ty c s e hl
  rw [if_neg hty] at h
  exact ⟨h, by rw [h]; exact hl⟩

/-- Witness for C4 at concrete inputs: entry of type tag 7, allocate with
tag 8. -/
theorem type_mismatch_fatal_entry_unchanged_witness :
    Process.allocate ⟨0, 2, [Buzzer.new 0 0, Buzzer.new 1 0]⟩ 8 3
        ⟨[(3, ⟨7, [none, some ([], { current := none, source := 1 })]⟩)], 4⟩
      = (Except.error AllocFatal.typeMismatch,
         ⟨[(3, ⟨7, [none, some ([], { current := none, source := 1 })]⟩)], 4⟩) ∧
    lookupEntry 3 (Process.allocate ⟨0, 2, [Buzzer.new 0 0, Buzzer.new 1 0]⟩ 8 3
        ⟨[(3, ⟨7, [none, some ([], { current := none, source := 1 })]⟩)], 4⟩).2.channels
      = some ⟨7, [none, some ([], { current := none, source := 1 })]⟩ :=
  type_mismatch_fatal_entry_unchanged ⟨0, 2, [Buzzer.new 0 0, Buzzer.new 1 0]⟩
    8 3 ⟨[(3, ⟨7, [none, some ([], { current := none, source := 1 })]⟩)], 4⟩
    ⟨7, [none, some ([], { current := none, source := 1 })]⟩
    (by decide) (by decide)

/-- C5: the per-id construction routine runs exactly once per entry
lifetime: an `allocate` advances the instrumented construction counter
precisely when the id is absent from the table, and once a fresh entry has
been constructed (with at least one other worker still to come), the entry
is present for later calls, which therefore reuse it without
reconstructing. -/
theorem construction_runs_exactly_once :
    (∀ (p : Process) (ty : RustTypeId) (c : Nat) (s : ProcessState),
      (p.allocate ty c s).2.constructions
        = s.constructions
            + (if (lookupEntry c s.channels).isSome then 0 else 1)) ∧
    (∀ (p : Process) (ty : RustTypeId) (c : Nat) (s : ProcessState),
      lookupEntry c s.channels = none → p.index < p.peers → 2 ≤ p.peers →
      (lookupEntry c (p.allocate ty c s).2.channels).isSome = true) := by
  constructor
  · intro p ty c s
    rcases hl : lookupEntry c s.channels with _ | e
    · rw [allocate_miss p ty c s hl]
      rcases hslot : (constructEntry p ty).slots[p.index]? with _ | ob
      · simp
      · rcases ob with _ | bundle <;> simp
    · rw [allocate_hit p ty c s e hl]
      by_cases hty : e.ty = ty
      · rw [if_pos hty]
        rcases hslot : e.slots[p.index]? with _ | ob
        · simp
        · rcases ob with _ | bundle <;> simp
      · rw [if_neg hty]; simp
  · intro p ty c s hl hidx hpeers
    have hmiss := allocate_miss p ty c s hl
    rw [constructEntry_slots_get p ty p.index hidx] at hmiss
    have hfalse : ((constructEntry p ty).slots.set p.index none).all
        (fun x => x.isNone) = false := by
      apply List.all_eq_false.mpr
      refine ⟨some (constructPushers p,
        { current := none, source := if p.index = 0 then 1 else 0 }), ?_, by simp⟩
      have hj : (if p.index = 0 then 1 else 0) < p.peers := by
        by_cases h0 : p.index = 0 <;> simp [h0] <;> omega
      have hjne : p.index ≠ (if p.index = 0 then 1 else 0) := by
        by_cases h0 : p.index = 0 <;> simp [h0]
      refine List.getElem?_mem (?_ :
        ((constructEntry p ty).slots.set p.index none)[if p.index = 0 then 1 else 0]?
          = _)
      rw [List.getElem?_set_ne hjne]
      exact constructEntry_slots_get p ty _ hj
    rw [hmiss, if_neg (by simp [hfalse])]
    simp [lookupEntry_insert_self]

/-- Witness for C5 at concrete inputs: two workers; worker 0's allocate on
the empty registry constructs and the entry is still present afterwards. -/
theorem construction_runs_exactly_once_witness :
    (lookupEntry 3 (Process.allocate ⟨0, 2, [Buzzer.new 0 0, Buzzer.new 1 0]⟩
        7 3 ⟨[], 0⟩).2.channels).isSome = true :=
  construction_runs_exactly_once.2 ⟨0, 2, [Buzzer.new 0 0, Buzzer.new 1 0]⟩
    7 3 ⟨[], 0⟩ (by decide) (by decide) (by decide)

end ProcessAlloc
